import Mathlib

/-!
Verification of the realtime screen-sharing session controller implemented in
`src/App.tsx` and `src/types.ts`.

The component is a single-threaded, callback-driven controller.  Each browser
callback (`handleStop`, `onerror`, `onclose`, `onmessage`, `startAISession`,
the `onended` handler of a playback source, the marker-expiry timeout) is
embedded as a pure function from the controller state (the React state hooks
together with the mutable refs) to a new state paired with the list of
externally visible actions it performs (closing the transport, stopping media
tracks, cancelling the frame timer, stopping or starting playback sources,
scheduling a marker removal, sending a tool response).  External queries whose
results the code consumes (clock reads, credential presence, media
acquisition, fresh random ids) are supplied as explicit environment values.
-/

/-- Sender tag of a transcript entry (`'user' | 'model'` in `src/types.ts`). -/
inductive Sender
  | user
  | model
  deriving DecidableEq

/-- `TranscriptionPart` from `src/types.ts`: `{text, sender, timestamp}`. -/
structure TranscriptionPart where
  text : String
  sender : Sender
  timestamp : Nat
  deriving DecidableEq

/-- `ClickAction` from `src/types.ts`: the on-screen marker
`{x, y, label, id}` created by the `click_answer` tool. -/
structure ClickAction where
  x : ℚ
  y : ℚ
  label : String
  id : String
  deriving DecidableEq

/-- `SessionStatus` from `src/types.ts`. -/
inductive SessionStatus
  | IDLE
  | CONNECTING
  | ACTIVE
  | ERROR
  deriving DecidableEq

/-- Externally visible actions performed by the controller's callbacks.
`sendToolResponse rid rname rresult` models
`session.sendToolResponse({functionResponses: [{id: rid, name: rname,
response: {result: rresult}}]})`; `startSource s t` models
`source.start(t)` on the output audio clock; `scheduleRemoval mId ms` models
the `setTimeout` that deletes marker `mId` after `ms` milliseconds. -/
inductive Effect
  | clearInterval (timer : Nat)
  | closeSession (sess : Nat)
  | stopTracks (stream : Nat)
  | stopSource (src : Nat)
  | startSource (src : Nat) (time : ℚ)
  | scheduleRemoval (mId : String) (ms : Nat)
  | sendToolResponse (rid : String) (rname : String) (rresult : String)
  deriving DecidableEq

/-- The state of the `App` component: the `useState` hooks (`status`, `error`,
`transcriptions`, `isScreenShared`, `clicks`, `isAiSpeaking`, `isCapturing`)
and the `useRef` cells (`screenStreamRef`, `micStreamRef`,
`activeSessionRef`, `nextStartTimeRef`, `sourcesRef`, `frameIntervalRef`) of
`src/App.tsx`.  The two `AudioContext` refs are tracked as booleans recording
whether the context has been created; streams, sessions, timers and playback
sources are tracked by numeric handles.  `sourcesRef` is a JS `Set` of fresh
objects kept in insertion order, so it is embedded as a list of handles. -/
structure AppState where
  status : SessionStatus
  error : Option String
  transcriptions : List TranscriptionPart
  isScreenShared : Bool
  clicks : List ClickAction
  isAiSpeaking : Bool
  isCapturing : Bool
  screenStream : Option Nat
  micStream : Option Nat
  activeSession : Option Nat
  outputCtx : Bool
  inputCtx : Bool
  nextStartTime : ℚ
  sources : List Nat
  frameInterval : Option Nat
  deriving DecidableEq

/-- The initial state of the component: every hook at its `useState`
initializer and every ref at `null` / `0` / empty. -/
def initState : AppState where
  status := SessionStatus.IDLE
  error := none
  transcriptions := []
  isScreenShared := false
  clicks := []
  isAiSpeaking := false
  isCapturing := false
  screenStream := none
  micStream := none
  activeSession := none
  outputCtx := false
  inputCtx := false
  nextStartTime := 0
  sources := []
  frameInterval := none

/-- The last `n` elements of a list, in order: JS `Array.prototype.slice(-n)`
(the whole list when it is shorter than `n`). -/
def takeLast {α : Type} (n : Nat) (l : List α) : List α :=
  l.drop (l.length - n)

/-- `addTranscription` (src/App.tsx line 56-58):
`setTranscriptions(prev => [...prev.slice(-20), {text, sender, timestamp:
Date.now()}])`. -/
def addTranscription (st : AppState) (text : String) (sender : Sender)
    (now : Nat) : AppState :=
  { st with transcriptions :=
      takeLast 20 st.transcriptions ++ [{ text := text, sender := sender, timestamp := now }] }

/-- Repeated `addTranscription` over a sequence of entries, each carrying its
own `Date.now()` timestamp. -/
def appendAll (st : AppState) : List TranscriptionPart → AppState
  | [] => st
  | e :: rest => appendAll (addTranscription st e.text e.sender e.timestamp) rest

/-- `handleStop` (src/App.tsx lines 60-88): cancel the frame timer, close the
transport session, stop every track of both capture streams, force-stop every
live playback source (the code wraps each `s.stop()` in `try/catch`, so no
exception escapes), clear the live set, then reset `status`, the three
boolean flags and `nextStartTimeRef`. -/
def handleStop (st : AppState) : AppState × List Effect :=
  let e1 := match st.frameInterval with
    | some t => [Effect.clearInterval t]
    | none => []
  let e2 := match st.activeSession with
    | some s => [Effect.closeSession s]
    | none => []
  let e3 := match st.screenStream with
    | some s => [Effect.stopTracks s]
    | none => []
  let e4 := match st.micStream with
    | some s => [Effect.stopTracks s]
    | none => []
  let e5 := st.sources.map Effect.stopSource
  ({ st with
      frameInterval := none
      activeSession := none
      screenStream := none
      micStream := none
      sources := []
      status := SessionStatus.IDLE
      isScreenShared := false
      isAiSpeaking := false
      isCapturing := false
      nextStartTime := 0 },
   e1 ++ e2 ++ e3 ++ e4 ++ e5)

/-- The message surfaced by the transport error callback (src/App.tsx
line 253). -/
def connectionErrorMessage : String := "Connection issue detected. Re-syncing..."

/-- First statement of the `onerror` callback (src/App.tsx line 253):
`setError("Connection issue detected. Re-syncing...")`. -/
def setErrorStep (st : AppState) : AppState :=
  { st with error := some connectionErrorMessage }

/-- The `onerror` transport callback (src/App.tsx lines 251-255): surface the
error message, then run the full `handleStop` teardown. -/
def onerror (st : AppState) : AppState × List Effect :=
  handleStop (setErrorStep st)

/-- The sequence of `status` values the state passes through while `onerror`
runs: before the callback, after `setError` (which does not touch `status`),
and after the cascaded `handleStop`. -/
def onerrorStatusTrace (st : AppState) : List SessionStatus :=
  [st.status, (setErrorStep st).status, (onerror st).1.status]

/-- The `onclose` transport callback (src/App.tsx line 256): `handleStop`. -/
def onclose (st : AppState) : AppState × List Effect :=
  handleStop st

/-- The `onended` handler of a playback source (src/App.tsx lines 221-224):
remove the source from the live set and, if the set became empty, clear the
speaking flag. -/
def onSourceEnded (st : AppState) (src : Nat) : AppState :=
  let remaining := st.sources.filter (fun s => s != src)
  { st with
      sources := remaining
      isAiSpeaking := if remaining.isEmpty then false else st.isAiSpeaking }

/-- Body of the marker-expiry timeout (src/App.tsx line 243):
`setClicks(prev => prev.filter(c => c.id !== id))`. -/
def removeClick (st : AppState) (mId : String) : AppState :=
  { st with clicks := st.clicks.filter (fun c => c.id != mId) }

/-- Arguments of a `click_answer` tool invocation as the dispatcher reads them
(`args.x`, `args.y`, `args.label`, src/App.tsx lines 240-242). -/
structure ToolArgs where
  x : ℚ
  y : ℚ
  label : String
  deriving DecidableEq

/-- One entry of `message.toolCall.functionCalls`: `{id, name, args}`. -/
structure FunctionCall where
  id : String
  name : String
  args : ToolArgs
  deriving DecidableEq

/-- The fields of an inbound `LiveServerMessage` that the `onmessage` handler
inspects.  `audioSamples` models
`serverContent.modelTurn.parts[0].inlineData.data` by the sample count of the
buffer it decodes to.  Modelled from the spec: `decode` / `decodeAudioData`
live in `utils/audio-helpers`, which is not under `src/`; per spec section 4.1
a decoded buffer has `duration = sampleCount / sampleRate`. -/
structure ServerMessage where
  outputTranscription : Option String
  inputTranscription : Option String
  audioSamples : Option Nat
  interrupted : Bool
  toolCall : Option (List FunctionCall)

/-- Environment values consumed by one run of the `onmessage` handler:
`Date.now()`, `ctx.currentTime` at the moment the audio block runs, the fresh
`AudioBufferSourceNode` created for an inline audio payload, and the stream of
fresh random marker ids (`Math.random().toString(36).substr(2, 9)`), indexed
by position in `functionCalls`. -/
structure MsgEnv where
  now : Nat
  clockTime : ℚ
  sourceId : Nat
  freshIds : Nat → String

/-- Duration of a decoded inbound audio chunk of `n` samples.  Modelled from
the spec: `decodeAudioData` (in `utils/audio-helpers`, not under `src/`)
yields `duration = sampleCount / sampleRate` at the fixed output rate
`AUDIO_SAMPLE_RATE = 24000`. -/
def chunkDuration (n : Nat) : ℚ := (n : ℚ) / 24000

/-- Transcription block of `onmessage` (src/App.tsx lines 206-210): an
`if / else if` appending model text, else user text, else nothing. -/
def transcriptStep (st : AppState) (env : MsgEnv) (m : ServerMessage) : AppState :=
  match m.outputTranscription with
  | some t => addTranscription st t Sender.model env.now
  | none =>
    match m.inputTranscription with
    | some t => addTranscription st t Sender.user env.now
    | none => st

/-- Audio block of `onmessage` (src/App.tsx lines 212-228), guarded by the
presence of inline audio data and of the output audio context: set the
speaking flag, clamp `nextStartTimeRef` up to the current clock time, start
the decoded buffer at that time, advance `nextStartTimeRef` by the chunk
duration, and register the source in the live set. -/
def audioStep (st : AppState) (env : MsgEnv) (m : ServerMessage) :
    AppState × List Effect :=
  match m.audioSamples with
  | some n =>
    if st.outputCtx then
      ({ st with
          isAiSpeaking := true
          nextStartTime := max st.nextStartTime env.clockTime + chunkDuration n
          sources := st.sources ++ [env.sourceId] },
       [Effect.startSource env.sourceId (max st.nextStartTime env.clockTime)])
    else (st, [])
  | none => (st, [])

/-- Interruption block of `onmessage` (src/App.tsx lines 230-235): stop every
live source, clear the set, reset `nextStartTimeRef` to `0`, clear the
speaking flag. -/
def interruptStep (st : AppState) (m : ServerMessage) : AppState × List Effect :=
  if m.interrupted then
    ({ st with sources := [], nextStartTime := 0, isAiSpeaking := false },
     st.sources.map Effect.stopSource)
  else (st, [])

/-- The single tool the dispatcher declares (src/App.tsx line 13). -/
def clickAnswerName : String := "click_answer"

/-- The acknowledgment payload of a tool response (src/App.tsx line 245). -/
def okResult : String := "ok"

/-- Handling of one entry of `functionCalls` (src/App.tsx lines 239-247): a
call naming `click_answer` appends a marker built from its arguments and a
fresh id, schedules the marker's removal after 4000 ms, and sends exactly one
tool response `{id, name, response: {result: "ok"}}`; any other name is
ignored. -/
def handleToolCall (st : AppState) (freshId : String) (fc : FunctionCall) :
    AppState × List Effect :=
  if fc.name = clickAnswerName then
    ({ st with clicks := st.clicks ++
        [{ x := fc.args.x, y := fc.args.y, label := fc.args.label, id := freshId }] },
     [Effect.scheduleRemoval freshId 4000,
      Effect.sendToolResponse fc.id fc.name okResult])
  else (st, [])

/-- The `for (const fc of message.toolCall.functionCalls)` loop (src/App.tsx
line 238), threading the state left to right and drawing one fresh id per
position. -/
def handleToolCalls (freshIds : Nat → String) :
    Nat → AppState → List FunctionCall → AppState × List Effect
  | _, st, [] => (st, [])
  | i, st, fc :: rest =>
    let p := handleToolCall st (freshIds i) fc
    let q := handleToolCalls freshIds (i + 1) p.1 rest
    (q.1, p.2 ++ q.2)

/-- Tool-call block of `onmessage` (src/App.tsx lines 237-249). -/
def toolStep (st : AppState) (env : MsgEnv) (m : ServerMessage) :
    AppState × List Effect :=
  match m.toolCall with
  | some fcs => handleToolCalls env.freshIds 0 st fcs
  | none => (st, [])

/-- The `onmessage` transport callback (src/App.tsx lines 205-250): the four
blocks run in sequence on the same state; a single message may trigger
several of them. -/
def onmessage (st : AppState) (env : MsgEnv) (m : ServerMessage) :
    AppState × List Effect :=
  let s1 := transcriptStep st env m
  let p2 := audioStep s1 env m
  let p3 := interruptStep p2.1 m
  let p4 := toolStep p3.1 env m
  (p4.1, p2.2 ++ p3.2 ++ p4.2)

/-- A message carrying only an inline audio payload of `n` samples. -/
def audioMsg (n : Nat) : ServerMessage where
  outputTranscription := none
  inputTranscription := none
  audioSamples := some n
  interrupted := false
  toolCall := none

/-- The tool responses among a list of effects, by correlation id and name. -/
def toolResponsesOf : List Effect → List (String × String)
  | [] => []
  | Effect.sendToolResponse i n _ :: es => (i, n) :: toolResponsesOf es
  | Effect.clearInterval _ :: es => toolResponsesOf es
  | Effect.closeSession _ :: es => toolResponsesOf es
  | Effect.stopTracks _ :: es => toolResponsesOf es
  | Effect.stopSource _ :: es => toolResponsesOf es
  | Effect.startSource _ _ :: es => toolResponsesOf es
  | Effect.scheduleRemoval _ _ :: es => toolResponsesOf es

/-- The message surfaced when the credential is absent (src/App.tsx
line 122). -/
def apiKeyMissingMessage : String := "API Key is missing from the environment."

/-- Environment values consumed by one run of `startAISession`: whether
`process.env.API_KEY` is set, whether creating/resuming the output audio
context succeeds, the result of `getUserMedia` (a fresh stream handle, or
`none` when it throws), whether creating/resuming the input audio context
succeeds, the result of awaiting `ai.live.connect` (a fresh session handle,
or `none` when it rejects), and the message of the caught exception
(`err.message || "Failed to start AI session."`). -/
structure StartEnv where
  apiKeyPresent : Bool
  outputCtxOk : Bool
  micResult : Option Nat
  inputCtxOk : Bool
  connectResult : Option Nat
  errMsg : String

/-- `startAISession` (src/App.tsx lines 120-264).  The missing-credential
check sets only the error message and returns without touching `status`.
Otherwise the status moves to `CONNECTING`, the error is cleared, and the
`try` block acquires the output audio context, the microphone stream, the
input audio context and the transport session in that order; a failure at any
of these points falls into the `catch`, which surfaces the exception message
and resets the status to `IDLE`, keeping whatever handles were already
assigned.  The function emits no teardown action on any path. -/
def startAISession (st : AppState) (env : StartEnv) : AppState × List Effect :=
  if !env.apiKeyPresent then
    ({ st with error := some apiKeyMissingMessage }, [])
  else
    let st1 := { st with status := SessionStatus.CONNECTING, error := none }
    if !env.outputCtxOk then
      ({ st1 with error := some env.errMsg, status := SessionStatus.IDLE }, [])
    else
      let st2 := { st1 with outputCtx := true }
      match env.micResult with
      | none => ({ st2 with error := some env.errMsg, status := SessionStatus.IDLE }, [])
      | some micId =>
        let st3 := { st2 with micStream := some micId }
        if !env.inputCtxOk then
          ({ st3 with error := some env.errMsg, status := SessionStatus.IDLE }, [])
        else
          let st4 := { st3 with inputCtx := true }
          match env.connectResult with
          | none => ({ st4 with error := some env.errMsg, status := SessionStatus.IDLE }, [])
          | some sessId => ({ st4 with activeSession := some sessId }, [])

/-- The `onopen` transport callback (src/App.tsx lines 158-204): the session
becomes `ACTIVE`, the capture flag is raised, and the frame-capture timer is
installed. -/
def onopen (st : AppState) (timerId : Nat) : AppState :=
  { st with status := SessionStatus.ACTIVE, isCapturing := true,
            frameInterval := some timerId }

lemma takeLast_of_le {α : Type} {n : Nat} {l : List α} (h : l.length ≤ n) :
    takeLast n l = l := by
  unfold takeLast
  rw [Nat.sub_eq_zero_of_le h, List.drop_zero]

lemma takeLast_cons {α : Type} {n : Nat} (a : α) {l : List α} (h : n ≤ l.length) :
    takeLast n (a :: l) = takeLast n l := by
  unfold takeLast
  have hlen : (a :: l).length - n = (l.length - n) + 1 := by
    simp only [List.length_cons]
    omega
  rw [hlen, List.drop_succ_cons]

lemma length_takeLast {α : Type} (n : Nat) (l : List α) :
    (takeLast n l).length = min n l.length := by
  unfold takeLast
  rw [List.length_drop]
  omega

lemma takeLast21_takeLast20_append {α : Type} (w r : List α)
    (hw : w.length ≤ 21) (hr : r ≠ []) :
    takeLast 21 (takeLast 20 w ++ r) = takeLast 21 (w ++ r) := by
  by_cases h20 : w.length ≤ 20
  · rw [takeLast_of_le h20]
  · have h21 : w.length = 21 := by omega
    cases w with
    | nil => simp at h21
    | cons a t =>
      have ht : t.length = 20 := by
        simp only [List.length_cons] at h21
        omega
      have hr1 : 1 ≤ r.length := by
        cases r with
        | nil => exact absurd rfl hr
        | cons b rs => simp
      have h1 : takeLast 20 (a :: t) = t := by
        rw [takeLast_cons a (by omega), takeLast_of_le (by omega)]
      rw [h1, List.cons_append, takeLast_cons a (by simp [ht]; omega)]

lemma appendAll_nil (st : AppState) : appendAll st [] = st := rfl

lemma appendAll_cons (st : AppState) (e : TranscriptionPart)
    (rest : List TranscriptionPart) :
    appendAll st (e :: rest)
      = appendAll (addTranscription st e.text e.sender e.timestamp) rest := rfl

lemma appendAll_transcriptions :
    ∀ (l : List TranscriptionPart) (st : AppState),
      st.transcriptions.length ≤ 21 →
      (appendAll st l).transcriptions = takeLast 21 (st.transcriptions ++ l) := by
  intro l
  induction l with
  | nil =>
    intro st h
    rw [appendAll_nil, List.append_nil, takeLast_of_le h]
  | cons e rest ih =>
    intro st h
    have htr : (addTranscription st e.text e.sender e.timestamp).transcriptions
        = takeLast 20 st.transcriptions ++ [e] := rfl
    have hlen :
        (addTranscription st e.text e.sender e.timestamp).transcriptions.length ≤ 21 := by
      rw [htr, List.length_append, length_takeLast, List.length_singleton]
      omega
    rw [appendAll_cons, ih _ hlen, htr, List.append_assoc, List.singleton_append]
    exact takeLast21_takeLast20_append st.transcriptions (e :: rest) h (by simp)

/-- An explicit sequence of 21 distinct transcript entries. -/
def ex21 : List TranscriptionPart :=
  (List.range 21).map (fun i => { text := "t", sender := Sender.model, timestamp := i })

/-- C1 counterexample: appending 21 entries to the empty transcript leaves a
window of 21 entries, not the 20 most recent the claim asserts. -/
theorem c1_counterexample :
    20 < ex21.length ∧
    ((appendAll initState ex21).transcriptions).length = 21 ∧
    (appendAll initState ex21).transcriptions ≠ takeLast 20 ex21 := by
  decide

/-- C1 (amended): the transcript window keeps the last 20 previous entries and
then appends the new one, so after appending more than 20 entries it contains
exactly the 21 most recent entries, oldest evicted first, in their original
relative order. -/
theorem c1_window_bound (l : List TranscriptionPart) (h : 20 < l.length) :
    (appendAll initState l).transcriptions = takeLast 21 l ∧
    ((appendAll initState l).transcriptions).length = 21 := by
  have hmain := appendAll_transcriptions l initState (by simp [initState])
  have hnil : initState.transcriptions ++ l = l := by simp [initState]
  rw [hnil] at hmain
  refine ⟨hmain, ?_⟩
  rw [hmain, length_takeLast]
  omega

theorem c1_window_bound_witness :
    20 < ex21.length ∧
    (appendAll initState ex21).transcriptions = takeLast 21 ex21 := by
  exact ⟨by decide, (c1_window_bound ex21 (by decide)).1⟩

/-- C8: teardown is idempotent and total.  `handleStop` is a total function
(each fallible `s.stop()` is wrapped in `try/catch` in the source, so no state
raises); from any state — including one where no handle was ever assigned —
it leaves the status `Idle`, every handle cleared, the live playback set
empty and the playback clock offset zero; a second call is the identity and
performs no further action; and the single call cancels the frame timer,
closes the session, stops the streams and stops every live source. -/
theorem c8_teardown_idempotent (st : AppState) :
    (handleStop st).1.status = SessionStatus.IDLE ∧
    (handleStop st).1.frameInterval = none ∧
    (handleStop st).1.activeSession = none ∧
    (handleStop st).1.screenStream = none ∧
    (handleStop st).1.micStream = none ∧
    (handleStop st).1.sources = [] ∧
    (handleStop st).1.nextStartTime = 0 ∧
    handleStop (handleStop st).1 = ((handleStop st).1, []) ∧
    (∀ t, st.frameInterval = some t → Effect.clearInterval t ∈ (handleStop st).2) ∧
    (∀ s, st.activeSession = some s → Effect.closeSession s ∈ (handleStop st).2) ∧
    (∀ s, st.screenStream = some s → Effect.stopTracks s ∈ (handleStop st).2) ∧
    (∀ s, st.micStream = some s → Effect.stopTracks s ∈ (handleStop st).2) ∧
    (∀ src, src ∈ st.sources → Effect.stopSource src ∈ (handleStop st).2) := by
  refine ⟨rfl, rfl, rfl, rfl, rfl, rfl, rfl, rfl, ?_, ?_, ?_, ?_, ?_⟩
  · intro t ht
    simp [handleStop, ht, List.mem_append]
  · intro s hs
    simp [handleStop, hs, List.mem_append]
  · intro s hs
    simp [handleStop, hs, List.mem_append]
  · intro s hs
    simp [handleStop, hs, List.mem_append]
  · intro src hsrc
    simp [handleStop, List.mem_append, List.mem_map]
    tauto

/-- A fully initialized active state, with every handle assigned. -/
def exFull : AppState :=
  { initState with
      status := SessionStatus.ACTIVE
      frameInterval := some 3
      activeSession := some 1
      screenStream := some 4
      micStream := some 2
      sources := [5, 6]
      nextStartTime := 7
      isAiSpeaking := true
      isCapturing := true
      isScreenShared := true }

theorem c8_teardown_idempotent_witness :
    (handleStop exFull).1.status = SessionStatus.IDLE ∧
    handleStop (handleStop exFull).1 = ((handleStop exFull).1, []) ∧
    Effect.clearInterval 3 ∈ (handleStop exFull).2 ∧
    Effect.closeSession 1 ∈ (handleStop exFull).2 ∧
    Effect.stopTracks 4 ∈ (handleStop exFull).2 ∧
    Effect.stopTracks 2 ∈ (handleStop exFull).2 ∧
    Effect.stopSource 5 ∈ (handleStop exFull).2 := by
  obtain ⟨h1, _, _, _, _, _, _, h8, h9, h10, h11, h12, h13⟩ :=
    c8_teardown_idempotent exFull
  exact ⟨h1, h8, h9 3 rfl, h10 1 rfl, h11 4 rfl, h12 2 rfl, h13 5 (by decide)⟩

/-- C10: teardown's frame condition.  `handleStop` leaves the surfaced error
message, the transcript window, the marker set and the two audio-context
handles unchanged; in particular the message set by the transport error
callback is still present after its cascaded teardown, and live markers
survive a stop (their removal happens only through their own scheduled
4000 ms `removeClick` timeout). -/
theorem c10_stop_preserves_error_transcript_markers (st : AppState) :
    (handleStop st).1.error = st.error ∧
    (handleStop st).1.transcriptions = st.transcriptions ∧
    (handleStop st).1.clicks = st.clicks ∧
    (handleStop st).1.outputCtx = st.outputCtx ∧
    (handleStop st).1.inputCtx = st.inputCtx ∧
    (onerror st).1.error = some connectionErrorMessage ∧
    (onerror st).1.transcriptions = st.transcriptions ∧
    (onerror st).1.clicks = st.clicks :=
  ⟨rfl, rfl, rfl, rfl, rfl, rfl, rfl, rfl⟩

/-- A state in the middle of an active session, used for the transport-error
scenarios. -/
def exActive : AppState :=
  { initState with
      status := SessionStatus.ACTIVE
      activeSession := some 1
      micStream := some 2
      frameInterval := some 3
      outputCtx := true
      inputCtx := true }

/-- C2 counterexample: handling a transport error in an active session never
passes through the `ERROR` status — the callback sets the error message
(leaving the status `ACTIVE`) and then `handleStop` assigns `IDLE` directly;
`SessionStatus.ERROR` is assigned nowhere. -/
theorem c2_counterexample :
    onerrorStatusTrace exActive
      = [SessionStatus.ACTIVE, SessionStatus.ACTIVE, SessionStatus.IDLE] ∧
    SessionStatus.ERROR ∉ onerrorStatusTrace exActive := by
  decide

/-- C2 (amended): a transport-level error surfaces the connection error
message and cascades into the full teardown, leaving the session in the
stoppable `Idle` status with every handle cleared; the `Error` status is
never entered at any point of the handling. -/
theorem c2_transport_error_teardown (st : AppState)
    (h : st.status ≠ SessionStatus.ERROR) :
    (onerror st).1.status = SessionStatus.IDLE ∧
    (onerror st).1.error = some connectionErrorMessage ∧
    (onerror st).1.frameInterval = none ∧
    (onerror st).1.activeSession = none ∧
    (onerror st).1.screenStream = none ∧
    (onerror st).1.micStream = none ∧
    (onerror st).1.sources = [] ∧
    (onerror st).1.nextStartTime = 0 ∧
    SessionStatus.ERROR ∉ onerrorStatusTrace st := by
  refine ⟨rfl, rfl, rfl, rfl, rfl, rfl, rfl, rfl, ?_⟩
  intro hmem
  simp only [onerrorStatusTrace, setErrorStep, onerror, handleStop,
    List.mem_cons, List.not_mem_nil, or_false] at hmem
  rcases hmem with h1 | h1 | h1
  · exact h h1.symm
  · exact h h1.symm
  · exact SessionStatus.noConfusion h1

theorem c2_transport_error_teardown_witness :
    exActive.status ≠ SessionStatus.ERROR ∧
    (onerror exActive).1.status = SessionStatus.IDLE ∧
    (onerror exActive).1.error = some connectionErrorMessage := by
  have h := c2_transport_error_teardown exActive (by decide)
  exact ⟨by decide, h.1, h.2.1⟩

lemma chunkDuration_nonneg (n : Nat) : 0 ≤ chunkDuration n := by
  unfold chunkDuration
  positivity

lemma transcriptStep_frame (st : AppState) (env : MsgEnv) (m : ServerMessage) :
    (transcriptStep st env m).sources = st.sources ∧
    (transcriptStep st env m).nextStartTime = st.nextStartTime ∧
    (transcriptStep st env m).isAiSpeaking = st.isAiSpeaking ∧
    (transcriptStep st env m).outputCtx = st.outputCtx := by
  obtain ⟨ot, it, au, intr, tc⟩ := m
  cases ot <;> cases it <;> exact ⟨rfl, rfl, rfl, rfl⟩

lemma audioStep_nst_le (st : AppState) (env : MsgEnv) (m : ServerMessage) :
    st.nextStartTime ≤ (audioStep st env m).1.nextStartTime := by
  obtain ⟨ot, it, au, intr, tc⟩ := m
  cases au with
  | none => exact le_refl _
  | some n =>
    by_cases h : st.outputCtx = true
    · simp only [audioStep, h, if_true]
      calc st.nextStartTime
          ≤ max st.nextStartTime env.clockTime := le_max_left _ _
        _ ≤ max st.nextStartTime env.clockTime + chunkDuration n :=
            le_add_of_nonneg_right (chunkDuration_nonneg n)
    · simp [audioStep, h]

lemma handleToolCall_frame (st : AppState) (fid : String) (fc : FunctionCall) :
    (handleToolCall st fid fc).1.sources = st.sources ∧
    (handleToolCall st fid fc).1.nextStartTime = st.nextStartTime ∧
    (handleToolCall st fid fc).1.isAiSpeaking = st.isAiSpeaking := by
  unfold handleToolCall
  split <;> exact ⟨rfl, rfl, rfl⟩

lemma handleToolCalls_nil (f : Nat → String) (i : Nat) (st : AppState) :
    handleToolCalls f i st [] = (st, []) := rfl

lemma handleToolCalls_cons (f : Nat → String) (i : Nat) (st : AppState)
    (fc : FunctionCall) (rest : List FunctionCall) :
    handleToolCalls f i st (fc :: rest)
      = ((handleToolCalls f (i + 1) (handleToolCall st (f i) fc).1 rest).1,
         (handleToolCall st (f i) fc).2
           ++ (handleToolCalls f (i + 1) (handleToolCall st (f i) fc).1 rest).2) := rfl

lemma handleToolCalls_frame (f : Nat → String) :
    ∀ (l : List FunctionCall) (i : Nat) (st : AppState),
      (handleToolCalls f i st l).1.sources = st.sources ∧
      (handleToolCalls f i st l).1.nextStartTime = st.nextStartTime ∧
      (handleToolCalls f i st l).1.isAiSpeaking = st.isAiSpeaking := by
  intro l
  induction l with
  | nil => intro i st; exact ⟨rfl, rfl, rfl⟩
  | cons fc rest ih =>
    intro i st
    obtain ⟨h1, h2, h3⟩ := ih (i + 1) (handleToolCall st (f i) fc).1
    obtain ⟨g1, g2, g3⟩ := handleToolCall_frame st (f i) fc
    exact ⟨h1.trans g1, h2.trans g2, h3.trans g3⟩

lemma toolStep_frame (st : AppState) (env : MsgEnv) (m : ServerMessage) :
    (toolStep st env m).1.sources = st.sources ∧
    (toolStep st env m).1.nextStartTime = st.nextStartTime ∧
    (toolStep st env m).1.isAiSpeaking = st.isAiSpeaking := by
  rcases htc : m.toolCall with _ | fcs
  · simp [toolStep, htc]
  · simp only [toolStep, htc]
    exact handleToolCalls_frame env.freshIds fcs 0 st

lemma onmessage_nst_mono (st : AppState) (env : MsgEnv) (m : ServerMessage)
    (h : m.interrupted = false) :
    st.nextStartTime ≤ (onmessage st env m).1.nextStartTime := by
  have h1 : (transcriptStep st env m).nextStartTime = st.nextStartTime :=
    (transcriptStep_frame st env m).2.1
  have h2 := audioStep_nst_le (transcriptStep st env m) env m
  have h3 : interruptStep (audioStep (transcriptStep st env m) env m).1 m
      = ((audioStep (transcriptStep st env m) env m).1, []) := by
    simp [interruptStep, h]
  have h4 := (toolStep_frame
      (interruptStep (audioStep (transcriptStep st env m) env m).1 m).1 env m).2.1
  show st.nextStartTime
      ≤ (toolStep (interruptStep (audioStep (transcriptStep st env m) env m).1 m).1
          env m).1.nextStartTime
  rw [h4, h3]
  calc st.nextStartTime = (transcriptStep st env m).nextStartTime := h1.symm
    _ ≤ _ := h2

lemma onmessage_audioMsg (st : AppState) (env : MsgEnv) (n : Nat)
    (h : st.outputCtx = true) :
    onmessage st env (audioMsg n)
      = ({ st with
            isAiSpeaking := true
            nextStartTime := max st.nextStartTime env.clockTime + chunkDuration n
            sources := st.sources ++ [env.sourceId] },
         [Effect.startSource env.sourceId (max st.nextStartTime env.clockTime)]) := by
  simp [onmessage, transcriptStep, audioStep, interruptStep, toolStep, audioMsg, h]

/-- C4: playback scheduling never overlaps and never goes backwards.  For two
consecutive inline audio chunks the handler starts each chunk at
`max nextStartTime currentTime`, so the second chunk's start time is at least
the first chunk's start time plus the first chunk's duration, and each start
time is at least the output clock's reading at its own invocation; moreover
`nextStartTime` is non-decreasing across any message that does not carry an
interruption. -/
theorem c4_scheduler_nonoverlap (st : AppState) (env₁ env₂ : MsgEnv)
    (n₁ n₂ : Nat) (h : st.outputCtx = true) :
    (onmessage st env₁ (audioMsg n₁)).2
      = [Effect.startSource env₁.sourceId (max st.nextStartTime env₁.clockTime)] ∧
    (onmessage (onmessage st env₁ (audioMsg n₁)).1 env₂ (audioMsg n₂)).2
      = [Effect.startSource env₂.sourceId
          (max (onmessage st env₁ (audioMsg n₁)).1.nextStartTime env₂.clockTime)] ∧
    env₁.clockTime ≤ max st.nextStartTime env₁.clockTime ∧
    env₂.clockTime
      ≤ max (onmessage st env₁ (audioMsg n₁)).1.nextStartTime env₂.clockTime ∧
    max st.nextStartTime env₁.clockTime + chunkDuration n₁
      ≤ max (onmessage st env₁ (audioMsg n₁)).1.nextStartTime env₂.clockTime ∧
    (∀ (m : ServerMessage) (env : MsgEnv), m.interrupted = false →
        st.nextStartTime ≤ (onmessage st env m).1.nextStartTime) := by
  have hA := onmessage_audioMsg st env₁ n₁ h
  have hst₁ : (onmessage st env₁ (audioMsg n₁)).1
      = { st with
            isAiSpeaking := true
            nextStartTime := max st.nextStartTime env₁.clockTime + chunkDuration n₁
            sources := st.sources ++ [env₁.sourceId] } := by rw [hA]
  have hctx : (onmessage st env₁ (audioMsg n₁)).1.outputCtx = true := by
    rw [hst₁]
    exact h
  have hB := onmessage_audioMsg (onmessage st env₁ (audioMsg n₁)).1 env₂ n₂ hctx
  have hnst : (onmessage st env₁ (audioMsg n₁)).1.nextStartTime
      = max st.nextStartTime env₁.clockTime + chunkDuration n₁ := by rw [hst₁]
  refine ⟨?_, ?_, le_max_right _ _, le_max_right _ _, ?_, ?_⟩
  · rw [hA]
  · rw [hB]
  · rw [hnst]
    exact le_max_left _ _
  · intro m env hm
    exact onmessage_nst_mono st env m hm

/-- A state with live playback sources and a pending timeline. -/
def exSt4 : AppState := { initState with outputCtx := true }

/-- Message environments for two consecutive audio chunks. -/
def exEnvA : MsgEnv :=
  { now := 0, clockTime := 1, sourceId := 11, freshIds := fun _ => "a" }

def exEnvB : MsgEnv :=
  { now := 0, clockTime := 2, sourceId := 12, freshIds := fun _ => "a" }

theorem c4_scheduler_nonoverlap_witness :
    exSt4.outputCtx = true ∧
    (onmessage exSt4 exEnvA (audioMsg 240)).2
      = [Effect.startSource exEnvA.sourceId (max exSt4.nextStartTime exEnvA.clockTime)] ∧
    max exSt4.nextStartTime exEnvA.clockTime + chunkDuration 240
      ≤ max (onmessage exSt4 exEnvA (audioMsg 240)).1.nextStartTime exEnvB.clockTime := by
  have h := c4_scheduler_nonoverlap exSt4 exEnvA exEnvB 240 240 rfl
  exact ⟨rfl, h.1, h.2.2.2.2.1⟩

/-- C7: an interruption signal empties the live playback set, resets
`nextStartTime` to `0` and clears the speaking flag, whatever else the same
message carries and however many slots were scheduled. -/
theorem c7_interruption_clears (st : AppState) (env : MsgEnv)
    (m : ServerMessage) (h : m.interrupted = true) :
    (onmessage st env m).1.sources = [] ∧
    (onmessage st env m).1.nextStartTime = 0 ∧
    (onmessage st env m).1.isAiSpeaking = false := by
  have hint : (interruptStep (audioStep (transcriptStep st env m) env m).1 m).1
      = { (audioStep (transcriptStep st env m) env m).1 with
            sources := []
            nextStartTime := 0
            isAiSpeaking := false } := by
    simp [interruptStep, h]
  obtain ⟨f1, f2, f3⟩ := toolStep_frame
    (interruptStep (audioStep (transcriptStep st env m) env m).1 m).1 env m
  refine ⟨?_, ?_, ?_⟩
  · show (toolStep (interruptStep (audioStep (transcriptStep st env m) env m).1 m).1
        env m).1.sources = []
    rw [f1, hint]
  · show (toolStep (interruptStep (audioStep (transcriptStep st env m) env m).1 m).1
        env m).1.nextStartTime = 0
    rw [f2, hint]
  · show (toolStep (interruptStep (audioStep (transcriptStep st env m) env m).1 m).1
        env m).1.isAiSpeaking = false
    rw [f3, hint]

/-- A scheduler state with two live slots and a pending timeline, receiving a
bare interruption message. -/
def exSt7 : AppState :=
  { initState with
      outputCtx := true
      sources := [4, 5]
      nextStartTime := 3
      isAiSpeaking := true }

def exEnv7 : MsgEnv :=
  { now := 0, clockTime := 0, sourceId := 0, freshIds := fun _ => "a" }

def exMsg7 : ServerMessage :=
  { outputTranscription := none, inputTranscription := none, audioSamples := none,
    interrupted := true, toolCall := none }

theorem c7_interruption_clears_witness :
    (onmessage exSt7 exEnv7 exMsg7).1.sources = [] ∧
    (onmessage exSt7 exEnv7 exMsg7).1.nextStartTime = 0 ∧
    (onmessage exSt7 exEnv7 exMsg7).1.isAiSpeaking = false :=
  c7_interruption_clears exSt7 exEnv7 exMsg7 rfl

lemma toolResponsesOf_nil : toolResponsesOf [] = [] := rfl

lemma toolResponsesOf_cons_response (i n r : String) (es : List Effect) :
    toolResponsesOf (Effect.sendToolResponse i n r :: es)
      = (i, n) :: toolResponsesOf es := rfl

lemma toolResponsesOf_cons_clearInterval (t : Nat) (es : List Effect) :
    toolResponsesOf (Effect.clearInterval t :: es) = toolResponsesOf es := rfl

lemma toolResponsesOf_cons_closeSession (s : Nat) (es : List Effect) :
    toolResponsesOf (Effect.closeSession s :: es) = toolResponsesOf es := rfl

lemma toolResponsesOf_cons_stopTracks (s : Nat) (es : List Effect) :
    toolResponsesOf (Effect.stopTracks s :: es) = toolResponsesOf es := rfl

lemma toolResponsesOf_cons_stopSource (s : Nat) (es : List Effect) :
    toolResponsesOf (Effect.stopSource s :: es) = toolResponsesOf es := rfl

lemma toolResponsesOf_cons_startSource (s : Nat) (t : ℚ) (es : List Effect) :
    toolResponsesOf (Effect.startSource s t :: es) = toolResponsesOf es := rfl

lemma toolResponsesOf_cons_scheduleRemoval (mId : String) (ms : Nat)
    (es : List Effect) :
    toolResponsesOf (Effect.scheduleRemoval mId ms :: es) = toolResponsesOf es := rfl

lemma toolResponsesOf_append (xs ys : List Effect) :
    toolResponsesOf (xs ++ ys) = toolResponsesOf xs ++ toolResponsesOf ys := by
  induction xs with
  | nil => rfl
  | cons e rest ih =>
    cases e <;>
      simp only [List.cons_append, toolResponsesOf_cons_response,
        toolResponsesOf_cons_clearInterval, toolResponsesOf_cons_closeSession,
        toolResponsesOf_cons_stopTracks, toolResponsesOf_cons_stopSource,
        toolResponsesOf_cons_startSource, toolResponsesOf_cons_scheduleRemoval,
        ih, List.cons_append]

lemma toolResponsesOf_stopSources (l : List Nat) :
    toolResponsesOf (l.map Effect.stopSource) = [] := by
  induction l with
  | nil => rfl
  | cons a rest ih =>
    simp only [List.map_cons, toolResponsesOf_cons_stopSource, ih]

lemma toolResponsesOf_audioStep (st : AppState) (env : MsgEnv)
    (m : ServerMessage) :
    toolResponsesOf (audioStep st env m).2 = [] := by
  obtain ⟨ot, it, au, intr, tc⟩ := m
  cases au with
  | none => rfl
  | some n =>
    by_cases h : st.outputCtx = true
    · simp only [audioStep, h, if_true]
      rfl
    · simp [audioStep, h]
      rfl

lemma toolResponsesOf_interruptStep (st : AppState) (m : ServerMessage) :
    toolResponsesOf (interruptStep st m).2 = [] := by
  cases hi : m.interrupted <;>
    simp only [interruptStep, hi, Bool.false_eq_true, if_false, if_true,
      toolResponsesOf_stopSources, toolResponsesOf_nil]

lemma handleToolCalls_responses (f : Nat → String) :
    ∀ (l : List FunctionCall) (i : Nat) (st : AppState),
      toolResponsesOf (handleToolCalls f i st l).2
        = (l.filter (fun fc => fc.name == clickAnswerName)).map
            (fun fc => (fc.id, fc.name)) := by
  intro l
  induction l with
  | nil => intro i st; rfl
  | cons fc rest ih =>
    intro i st
    rw [handleToolCalls_cons]
    show toolResponsesOf ((handleToolCall st (f i) fc).2
        ++ (handleToolCalls f (i + 1) (handleToolCall st (f i) fc).1 rest).2) = _
    rw [toolResponsesOf_append, ih]
    by_cases h : fc.name = clickAnswerName
    · simp [handleToolCall, h, toolResponsesOf_cons_scheduleRemoval,
        toolResponsesOf_cons_response, toolResponsesOf_nil, List.filter_cons]
    · simp [handleToolCall, h, toolResponsesOf_nil, List.filter_cons]

lemma toolStep_responses (st : AppState) (env : MsgEnv) (m : ServerMessage)
    (fcs : List FunctionCall) (h : m.toolCall = some fcs) :
    toolResponsesOf (toolStep st env m).2
      = (fcs.filter (fun fc => fc.name == clickAnswerName)).map
          (fun fc => (fc.id, fc.name)) := by
  simp only [toolStep, h]
  exact handleToolCalls_responses env.freshIds fcs 0 st

/-- C6: for any inbound message carrying tool invocations, the tool responses
the handler sends are exactly one per accepted invocation (an invocation is
accepted when it names the single declared tool, `click_answer`), in order,
each correlated to its invocation by the same `id`: no accepted invocation is
dropped and none is answered twice. -/
theorem c6_one_response_per_accepted_call (st : AppState) (env : MsgEnv)
    (m : ServerMessage) (fcs : List FunctionCall) (h : m.toolCall = some fcs) :
    toolResponsesOf (onmessage st env m).2
      = (fcs.filter (fun fc => fc.name == clickAnswerName)).map
          (fun fc => (fc.id, fc.name)) := by
  show toolResponsesOf ((audioStep (transcriptStep st env m) env m).2
      ++ (interruptStep (audioStep (transcriptStep st env m) env m).1 m).2
      ++ (toolStep (interruptStep (audioStep (transcriptStep st env m) env m).1 m).1
            env m).2) = _
  rw [toolResponsesOf_append, toolResponsesOf_append, toolResponsesOf_audioStep,
    toolResponsesOf_interruptStep]
  simp only [List.nil_append]
  exact toolStep_responses _ env m fcs h

/-- Two invocations, one naming the declared tool and one naming an unknown
tool. -/
def fcs6 : List FunctionCall :=
  [{ id := "abc", name := clickAnswerName, args := { x := 1, y := 2, label := "L" } },
   { id := "zz", name := "other_tool", args := { x := 0, y := 0, label := "Z" } }]

def exMsg6 : ServerMessage :=
  { outputTranscription := none, inputTranscription := none, audioSamples := none,
    interrupted := false, toolCall := some fcs6 }

def exEnv6 : MsgEnv :=
  { now := 0, clockTime := 0, sourceId := 0, freshIds := fun _ => "w" }

theorem c6_one_response_per_accepted_call_witness :
    toolResponsesOf (onmessage initState exEnv6 exMsg6).2
      = [(("abc" : String), clickAnswerName)] := by
  rw [c6_one_response_per_accepted_call initState exEnv6 exMsg6 fcs6 rfl]
  decide

/-- The invocation of the tool round-trip scenario. -/
def exInv5 : FunctionCall :=
  { id := "abc", name := clickAnswerName, args := { x := 42, y := 17, label := "Submit" } }

def exMsg5 : ServerMessage :=
  { outputTranscription := none, inputTranscription := none, audioSamples := none,
    interrupted := false, toolCall := some [exInv5] }

def exEnv5 : MsgEnv :=
  { now := 0, clockTime := 0, sourceId := 0, freshIds := fun _ => "mk1" }

/-- C5: on the invocation `{id: "abc", name: "click_answer", args: {x: 42,
y: 17, label: "Submit"}}` the dispatcher appends exactly one marker with
`x = 42`, `y = 17`, `label = "Submit"` (under the fresh id the environment
supplies), schedules its removal after 4000 ms, and sends exactly one tool
response `{id: "abc", name: "click_answer", response: {result: "ok"}}`. -/
theorem c5_tool_round_trip :
    (onmessage initState exEnv5 exMsg5).1.clicks
      = [{ x := 42, y := 17, label := "Submit", id := "mk1" }] ∧
    (onmessage initState exEnv5 exMsg5).2
      = [Effect.scheduleRemoval ("mk1") 4000,
         Effect.sendToolResponse ("abc") clickAnswerName okResult] := by
  decide

/-- A state still holding the handles of a previous (possibly partially
initialized) session: an open transport handle, an unreleased microphone
stream and a running frame timer. -/
def stPrior : AppState :=
  { initState with
      activeSession := some 1
      micStream := some 2
      frameInterval := some 3 }

/-- An environment in which every step of a start request succeeds,
delivering fresh handles. -/
def envOk : StartEnv :=
  { apiKeyPresent := true, outputCtxOk := true, micResult := some 8,
    inputCtxOk := true, connectResult := some 9, errMsg := "" }

/-- C3 counterexample: a start request issued while a prior session's
transport handle, microphone stream and frame timer are still present
performs no teardown whatsoever — it emits no close/stop/cancel action, it
overwrites the transport and microphone handles without releasing the old
ones, and it leaves the prior frame timer installed. -/
theorem c3_counterexample :
    stPrior.activeSession = some 1 ∧
    stPrior.micStream = some 2 ∧
    stPrior.frameInterval = some 3 ∧
    (startAISession stPrior envOk).2 = [] ∧
    (startAISession stPrior envOk).1.activeSession = some 9 ∧
    (startAISession stPrior envOk).1.micStream = some 8 ∧
    (startAISession stPrior envOk).1.frameInterval = some 3 := by
  decide

/-- C3 (amended): starting a new session never tears down a prior one.
`startAISession` emits no effect on any path — in particular no session
close, no track stop and no timer cancellation — and on a fully successful
start it simply overwrites the transport and microphone handles with the
fresh ones, leaving any prior frame timer untouched; a single active session
is ensured only externally, by the UI offering start only from the `Idle`
status. -/
theorem c3_start_no_teardown (st : AppState) (env : StartEnv) :
    (startAISession st env).2 = [] ∧
    (∀ k mId, env.apiKeyPresent = true → env.outputCtxOk = true →
      env.inputCtxOk = true → env.micResult = some mId →
      env.connectResult = some k →
      (startAISession st env).1.activeSession = some k ∧
      (startAISession st env).1.micStream = some mId ∧
      (startAISession st env).1.frameInterval = st.frameInterval) := by
  constructor
  · obtain ⟨ak, octx, mic, ictx, conn, msg⟩ := env
    cases ak <;> cases octx <;> cases ictx <;> cases mic <;> cases conn <;>
      simp [startAISession]
  · intro k mId hak hoctx hictx hmic hconn
    simp only [startAISession, hak, hoctx, hictx, hmic, hconn, Bool.not_true,
      Bool.false_eq_true, if_false]
    exact ⟨trivial, trivial, trivial⟩

theorem c3_start_no_teardown_witness :
    (startAISession stPrior envOk).2 = [] ∧
    (startAISession stPrior envOk).1.activeSession = some 9 ∧
    (startAISession stPrior envOk).1.micStream = some 8 ∧
    (startAISession stPrior envOk).1.frameInterval = stPrior.frameInterval := by
  have h := c3_start_no_teardown stPrior envOk
  obtain ⟨h1, h2, h3⟩ := h.2 9 8 rfl rfl rfl rfl rfl
  exact ⟨h.1, h1, h2, h3⟩

/-- C9: a start request that finds the credential absent, or fails to acquire
the output audio context, the microphone or the input audio context, ends
with the session back in the `Idle` status and a surfaced error message,
leaving the frame timer, the live playback set, the playback clock offset,
the transcript window and the marker set exactly as they were. -/
theorem c9_failed_start_aborts (st : AppState) (env : StartEnv)
    (hIdle : st.status = SessionStatus.IDLE)
    (hFail : env.apiKeyPresent = false ∨ env.outputCtxOk = false ∨
      env.micResult = none ∨ env.inputCtxOk = false) :
    (startAISession st env).1.status = SessionStatus.IDLE ∧
    (startAISession st env).1.error.isSome = true ∧
    (startAISession st env).1.frameInterval = st.frameInterval ∧
    (startAISession st env).1.sources = st.sources ∧
    (startAISession st env).1.nextStartTime = st.nextStartTime ∧
    (startAISession st env).1.transcriptions = st.transcriptions ∧
    (startAISession st env).1.clicks = st.clicks := by
  obtain ⟨ak, octx, mic, ictx, conn, msg⟩ := env
  simp only at hFail
  cases ak <;> cases octx <;> cases ictx <;> cases mic <;>
    simp_all [startAISession]

/-- An environment in which the credential is absent. -/
def envNoKey : StartEnv :=
  { apiKeyPresent := false, outputCtxOk := true, micResult := none,
    inputCtxOk := true, connectResult := none, errMsg := "" }

theorem c9_failed_start_aborts_witness :
    (startAISession initState envNoKey).1.status = SessionStatus.IDLE ∧
    (startAISession initState envNoKey).1.error.isSome = true ∧
    (startAISession initState envNoKey).1.transcriptions = initState.transcriptions ∧
    (startAISession initState envNoKey).1.clicks = initState.clicks := by
  obtain ⟨h1, h2, _, _, _, h6, h7⟩ :=
    c9_failed_start_aborts initState envNoKey rfl (Or.inl rfl)
  exact ⟨h1, h2, h6, h7⟩
